import Mathlib

/-!
Verification of the nia-mcp server core (src/index.ts): the upstream fetch
engine `fetchContextFromNia` (retry loop, SSE stream reconstruction, sources
extraction, non-stream fallback) and the `lookup_codebase_context` response
formatter. JS strings are modelled as `List Char`; external collaborators
(the network, `JSON.parse`) are parameters of the model.
-/

namespace Nia

/-- A JS string literal as a list of characters. -/
def toCh (s : String) : List Char := s.toList

/-- Concatenation of a list of char lists. -/
def catAll : List (List Char) → List Char
  | [] => []
  | l :: ls => l ++ catAll ls

/-- The backtick character appearing in the source-extraction regexes. -/
def backtick : Char := '\x60'

/-- Prefix test on char lists (JS `String.prototype.startsWith`). -/
def isPrefixL : List Char → List Char → Bool
  | [], _ => true
  | _ :: _, [] => false
  | p :: ps, c :: cs => if p = c then isPrefixL ps cs else false

/-- Substring test (JS `String.prototype.includes`). -/
def jsIncludes (s pat : List Char) : Bool :=
  match s with
  | [] => pat.isEmpty
  | _ :: rest => isPrefixL pat s || jsIncludes rest pat

/-- JS whitespace recognised by `String.prototype.trim` (ASCII part). -/
def isJsSpace (c : Char) : Bool :=
  c = ' ' || c = '\t' || c = '\n' || c = '\r' || c = '\x0b' || c = '\x0c'

/-- JS `String.prototype.trim`. -/
def jsTrim (l : List Char) : List Char :=
  ((l.dropWhile isJsSpace).reverse.dropWhile isJsSpace).reverse

/-- JS `String.prototype.split("\n\n")` (index.ts line 108): split on every
non-overlapping blank-line separator, keeping empty parts. -/
def jsSplitNN : List Char → List (List Char)
  | [] => [[]]
  | '\n' :: '\n' :: rest => [] :: jsSplitNN rest
  | c :: rest =>
    match jsSplitNN rest with
    | [] => [[c]]
    | p :: ps => (c :: p) :: ps

/-- Decimal rendering of a number, as JS template interpolation produces. -/
def natRepr (n : Nat) : List Char := (toString n).toList

/-- A JavaScript value as produced by `JSON.parse` (JSON numbers are
modelled as integers; no claim depends on numeric content). -/
inductive JsValue : Type where
  | undefined : JsValue
  | jsNull : JsValue
  | bool : Bool → JsValue
  | num : Int → JsValue
  | str : List Char → JsValue
  | arr : List JsValue → JsValue
  | obj : List (List Char × JsValue) → JsValue

def isNullish : JsValue → Bool
  | .jsNull => true
  | .undefined => true
  | _ => false

/-- JS truthiness. -/
def truthy : JsValue → Bool
  | .undefined => false
  | .jsNull => false
  | .bool b => b
  | .num n => if n = 0 then false else true
  | .str s => !s.isEmpty
  | .arr _ => true
  | .obj _ => true

def lookupField : List (List Char × JsValue) → List Char → JsValue
  | [], _ => .undefined
  | (k, v) :: fs, key => if k = key then v else lookupField fs key

/-- JS property access `v.key` / `v?.key` (undefined when absent or the
receiver is not an object). -/
def jsGet (v : JsValue) (key : List Char) : JsValue :=
  match v with
  | .obj fs => lookupField fs key
  | _ => .undefined

/-- JS index access `v[i]`. -/
def jsIndex (v : JsValue) (i : Nat) : JsValue :=
  match v with
  | .arr xs =>
    match xs.get? i with
    | some x => x
    | none => .undefined
  | .obj fs => lookupField fs (natRepr i)
  | .str s =>
    match s.get? i with
    | some c => .str [c]
    | none => .undefined
  | _ => .undefined

mutual

/-- JS ToString coercion, as applied by `fullContent += value`. -/
def jsToString : JsValue → List Char
  | .undefined => toCh ("undefined")
  | .jsNull => toCh ("null")
  | .bool true => toCh ("true")
  | .bool false => toCh ("false")
  | .num n => (toString n).toList
  | .str s => s
  | .obj _ => toCh ("[object Object]")
  | .arr xs => jsArrString xs

/-- JS `Array.prototype.toString`: elements joined by commas,
null/undefined elements rendered empty. -/
def jsArrString : List JsValue → List Char
  | [] => []
  | [x] => if isNullish x then [] else jsToString x
  | x :: xs => (if isNullish x then [] else jsToString x) ++ ',' :: jsArrString xs

end

def choicesK : List Char := toCh ("choices")
def deltaK : List Char := toCh ("delta")
def messageK : List Char := toCh ("message")
def contentK : List Char := toCh ("content")

/-- The content-probing cascade of index.ts lines 132-144: delta-style
field, then complete-message field, then raw top-level content field; the
first truthy one is appended. -/
def probeContent (j : JsValue) : List Char :=
  let d := jsGet (jsGet (jsIndex (jsGet j choicesK) 0) deltaK) contentK
  if truthy d then jsToString d
  else
    let m := jsGet (jsGet (jsIndex (jsGet j choicesK) 0) messageK) contentK
    if truthy m then jsToString m
    else
      let c := jsGet j contentK
      if truthy c then jsToString c
      else []

/-- Body of the SSE event loop of index.ts lines 111-150, acting on the
accumulator (`parse` stands for the external `JSON.parse`, `none` being a
thrown parse error, which the per-event catch turns into a skip). -/
def sseStep (parse : List Char → Option JsValue) (fullContent event : List Char) :
    List Char :=
  if (jsTrim event).isEmpty then fullContent
  else if jsIncludes event (toCh ("data: [DONE]")) then fullContent
  else if isPrefixL (toCh ("data: ")) event then
    let jsonStr := jsTrim (event.drop 6)
    if jsonStr.isEmpty then fullContent
    else
      match parse jsonStr with
      | some j => fullContent ++ probeContent j
      | none => fullContent
  else fullContent

/-- The full SSE accumulation loop over the split events (index.ts 104-150). -/
def sseAccumulate (parse : List Char → Option JsValue) (events : List (List Char)) :
    List Char :=
  events.foldl (sseStep parse) []

/-- Per-event fragment as the spec describes it: one fragment per
data-prefixed event, chosen by the ordered probe; empty events, the
done-marker event and unparsable payloads contribute nothing. -/
def eventFragment (parse : List Char → Option JsValue) (event : List Char) :
    List Char :=
  if (jsTrim event).isEmpty then []
  else if jsIncludes event (toCh ("data: [DONE]")) then []
  else if isPrefixL (toCh ("data: ")) event then
    let jsonStr := jsTrim (event.drop 6)
    if jsonStr.isEmpty then []
    else
      match parse jsonStr with
      | some j => probeContent j
      | none => []
  else []

/-- The literal head of the sources regex of index.ts line 153. -/
def sourcesHeader : List Char :=
  ['*', '*', 'S', 'o', 'u', 'r', 'c', 'e', 's', ':', '*', '*', '\n']

/-- Match one repetition item of the capture group, i.e. one "- `id`"
bullet with an optional trailing newline, at the head of `l`; returns the
consumed text and the remainder. The identifier class is one-or-more
non-backtick characters, matched greedily. -/
def parseItem (l : List Char) : Option (List Char × List Char) :=
  match l with
  | c1 :: c2 :: c3 :: rest =>
    if c1 = '-' ∧ c2 = ' ' ∧ c3 = backtick then
      let id := rest.takeWhile (fun c => c ≠ backtick)
      let rem := rest.dropWhile (fun c => c ≠ backtick)
      if id.isEmpty then none
      else
        match rem with
        | r1 :: r2 :: rest2 =>
          if r1 = backtick ∧ r2 = '\n' then
            some (c1 :: c2 :: c3 :: (id ++ [backtick, '\n']), rest2)
          else if r1 = backtick then
            some (c1 :: c2 :: c3 :: (id ++ [backtick]), r2 :: rest2)
          else none
        | [r1] =>
          if r1 = backtick then some (c1 :: c2 :: c3 :: (id ++ [backtick]), [])
          else none
        | [] => none
    else none
  | _ => none

/-- Greedy repetition of bullet items (the `(...)+` of the regex); the fuel
bounds the number of repetitions by the text length, which each successful
item strictly consumes. -/
def matchItemsAux : Nat → List Char → List Char
  | 0, _ => []
  | fuel + 1, l =>
    match parseItem l with
    | none => []
    | some (consumed, rest) => consumed ++ matchItemsAux fuel rest

def matchItems (l : List Char) : List Char := matchItemsAux l.length l

/-- Leftmost match of the sources regex (JS `String.prototype.match`
without the global flag): scan for the first position where the literal
header is followed by at least one bullet item, and return the capture
group (the run of items). -/
def findSourcesMatch : List Char → Option (List Char)
  | [] => none
  | c :: rest =>
    if isPrefixL sourcesHeader (c :: rest) then
      let cap := matchItems ((c :: rest).drop sourcesHeader.length)
      if cap.isEmpty then findSourcesMatch rest else some cap
    else findSourcesMatch rest

/-- The global exec loop of index.ts lines 156-160 over the captured text:
repeatedly find "- `id`" and collect each captured identifier; on a failed
match attempt the scan advances one character. Fuel bounds the scan by the
text length. -/
def execSourceRegexAux : Nat → List Char → List (List Char)
  | 0, _ => []
  | fuel + 1, l =>
    match l with
    | [] => []
    | c1 :: rest =>
      match rest with
      | c2 :: c3 :: rest2 =>
        if c1 = '-' ∧ c2 = ' ' ∧ c3 = backtick then
          let id := rest2.takeWhile (fun c => c ≠ backtick)
          let rem := rest2.dropWhile (fun c => c ≠ backtick)
          if id.isEmpty then execSourceRegexAux fuel rest
          else
            match rem with
            | r1 :: rest3 =>
              if r1 = backtick then id :: execSourceRegexAux fuel rest3
              else execSourceRegexAux fuel rest
            | [] => execSourceRegexAux fuel rest
        else execSourceRegexAux fuel rest
      | _ => execSourceRegexAux fuel rest

def execSourceRegex (l : List Char) : List (List Char) :=
  execSourceRegexAux l.length l

/-- Sources extraction of index.ts lines 152-161 (and, identically,
184-194): match the Sources section and collect the backtick-quoted
identifiers in appearance order; no match yields the empty list. -/
def extractSources (full : List Char) : List (List Char) :=
  match findSourcesMatch full with
  | some cap => execSourceRegex cap
  | none => []

/-- One well-formed bullet line "- `id`" followed by a newline. -/
def itemOf (id : List Char) : List Char :=
  '-' :: ' ' :: backtick :: (id ++ [backtick, '\n'])

/-- A well-formed trailing Sources block for a list of identifiers. -/
def sourcesBlock (ids : List (List Char)) : List Char :=
  catAll (ids.map itemOf)

/-- Identifiers a well-formed Sources block may carry: nonempty, without a
backtick. -/
def validIds (ids : List (List Char)) : Prop :=
  ∀ id ∈ ids, id ≠ [] ∧ backtick ∉ id

/-- The result record of the engine (index.ts line 26). -/
structure FetchResult where
  content : List Char
  sources : Option (List (List Char)) := none
  statusCode : Option Nat := none
deriving DecidableEq

/-- A thrown JS value, modelled as an Error object with a name and a
message. -/
structure JsError where
  name : List Char
  message : List Char
deriving DecidableEq

/-- The timeout classification of index.ts lines 217-219. -/
def isTimeoutError (e : JsError) : Bool :=
  e.name = toCh ("TimeoutError") || e.name = toCh ("AbortError") ||
  jsIncludes e.message (toCh ("timeout")) || jsIncludes e.message (toCh ("abort"))

/-- What one network attempt does: either the whole try-block throws, or a
response arrives with a status, an optional content type and a body text. -/
inductive AttemptOutcome where
  | throwErr : JsError → AttemptOutcome
  | response : Nat → Option (List Char) → List Char → AttemptOutcome

/-- External collaborators of one engine call: `JSON.parse` and the
outcome of each successive network attempt. -/
structure NiaEnv where
  parse : List Char → Option JsValue
  outcomes : Nat → AttemptOutcome

/-- `response.ok`: the HTTP status lies in the 2xx success range. -/
def responseOk (status : Nat) : Bool := decide (200 ≤ status) && decide (status < 300)

/-- The content-type test `contentType && contentType.includes(...)` of line 99. -/
def isSSEContentType : Option (List Char) → Bool
  | none => false
  | some ct => jsIncludes ct (toCh ("text/event-stream"))

/-- The shape test of index.ts line 177:
`!data || !data.choices || !data.choices[0] || !data.choices[0].message`. -/
def invalidShape (data : JsValue) : Bool :=
  !truthy data || !truthy (jsGet data choicesK) ||
  !truthy (jsIndex (jsGet data choicesK) 0) ||
  !truthy (jsGet (jsIndex (jsGet data choicesK) 0) messageK)

/-- `data.choices[0].message.content` of index.ts line 182. -/
def chatContentField (data : JsValue) : JsValue :=
  jsGet (jsGet (jsIndex (jsGet data choicesK) 0) messageK) contentK

/-- The TypeError raised by `content.match(...)` when the extracted content
field is not a string; its text contains neither "timeout" nor "abort". -/
def typeErrorContentMatch : JsError :=
  ⟨toCh ("TypeError"), toCh ("content.match is not a function")⟩

/-- The TypeError raised by `await response.text()` at index.ts line 205:
the fetch body is one-shot and was already consumed by the failed
`response.json()` at line 174, so the second read rejects. Its text
contains neither "timeout" nor "abort", so it is generic-class. -/
def bodyUnusableError : JsError :=
  ⟨toCh ("TypeError"), toCh ("Body is unusable: Body has already been read")⟩

/-- The try-block of one iteration (index.ts lines 61-210): non-2xx statuses
short-circuit, an SSE body is reconstructed and mined for sources, other
bodies go through the JSON fallback. An `.error` is a thrown value caught
by the catch of the retry loop. When `JSON.parse` fails, the catch at
lines 201-210 re-reads the already-consumed body, so `response.text()`
throws and the written 2000-character plain-text return at lines 206-209
is unreachable; the branch therefore raises `bodyUnusableError`. -/
def attempt (parse : List Char → Option JsValue) :
    AttemptOutcome → Except JsError FetchResult
  | .throwErr e => .error e
  | .response status contentType body =>
    if !responseOk status then
      .ok { content := [], statusCode := some status }
    else if isSSEContentType contentType then
      let fullContent := sseAccumulate parse (jsSplitNN body)
      .ok { content := fullContent, sources := some (extractSources fullContent) }
    else
      match parse body with
      | some data =>
        if invalidShape data then
          .ok { content := toCh ("Error: Invalid response format from API"),
                statusCode := some 500 }
        else
          match chatContentField data with
          | .str c => .ok { content := c, sources := some (extractSources c) }
          | _ => .error typeErrorContentMatch
      | none => .error bodyUnusableError

def maxRetries : Nat := 3
def maxTimeoutRetries : Nat := 5

def timeoutExhaustedMsg (n : Nat) : List Char :=
  toCh ("Request timed out after ") ++ natRepr n ++
  toCh (" attempts. The Nia API might be experiencing high load or the query is too complex.")

def errorMessageOf : Option JsError → List Char
  | some e => e.message
  | none => toCh ("null")

def genericExhaustedMsg (n : Nat) (e : Option JsError) : List Char :=
  toCh ("Error communicating with Nia API after ") ++ natRepr n ++
  toCh (" attempts: ") ++ errorMessageOf e

/-- The post-loop returns of index.ts lines 254-261. -/
def exhaustedResult (timeoutRetryCount retryCount : Nat) (lastError : Option JsError) :
    FetchResult :=
  if maxTimeoutRetries ≤ timeoutRetryCount then
    { content := timeoutExhaustedMsg timeoutRetryCount, statusCode := some 408 }
  else
    { content := genericExhaustedMsg retryCount lastError, statusCode := some 500 }

/-- The per-call mutable state of the engine, with the backoff waits the loop
has performed recorded in order. -/
structure LoopState where
  retryCount : Nat
  timeoutRetryCount : Nat
  lastError : Option JsError
  attemptIndex : Nat
  waits : List Nat
deriving DecidableEq

def initLoopState : LoopState := ⟨0, 0, none, 0, []⟩

/-- The retry loop of index.ts lines 42-261, stepped with explicit fuel:
`none` means the loop has not returned within `fuel` iterations. The inner
`Option FetchResult` mirrors the declared `... | null` return type. -/
def runLoopFull (env : NiaEnv) : Nat → LoopState → Option (Option FetchResult × LoopState)
  | 0, _ => none
  | fuel + 1, st =>
    if st.retryCount < maxRetries ∨ st.timeoutRetryCount < maxTimeoutRetries then
      match attempt env.parse (env.outcomes st.attemptIndex) with
      | .ok r => some (some r, { st with attemptIndex := st.attemptIndex + 1 })
      | .error e =>
        if isTimeoutError e then
          if st.timeoutRetryCount + 1 < maxTimeoutRetries then
            runLoopFull env fuel
              ⟨st.retryCount, st.timeoutRetryCount + 1, st.lastError, st.attemptIndex + 1,
               st.waits ++ [1000 * (st.timeoutRetryCount + 1)]⟩
          else if maxRetries ≤ st.retryCount ∧ maxTimeoutRetries ≤ st.timeoutRetryCount + 1 then
            some (some (exhaustedResult (st.timeoutRetryCount + 1) st.retryCount st.lastError),
                  ⟨st.retryCount, st.timeoutRetryCount + 1, st.lastError,
                   st.attemptIndex + 1, st.waits⟩)
          else
            runLoopFull env fuel
              ⟨st.retryCount, st.timeoutRetryCount + 1, st.lastError,
               st.attemptIndex + 1, st.waits⟩
        else
          if st.retryCount + 1 < maxRetries then
            if maxRetries ≤ st.retryCount + 1 ∧ maxTimeoutRetries ≤ st.timeoutRetryCount then
              some (some (exhaustedResult st.timeoutRetryCount (st.retryCount + 1) (some e)),
                    ⟨st.retryCount + 1, st.timeoutRetryCount, some e, st.attemptIndex + 1,
                     st.waits ++ [min (1000 * 2 ^ (st.retryCount + 1)) 10000]⟩)
            else
              runLoopFull env fuel
                ⟨st.retryCount + 1, st.timeoutRetryCount, some e, st.attemptIndex + 1,
                 st.waits ++ [min (1000 * 2 ^ (st.retryCount + 1)) 10000]⟩
          else
            if maxRetries ≤ st.retryCount + 1 ∧ maxTimeoutRetries ≤ st.timeoutRetryCount then
              some (some (exhaustedResult st.timeoutRetryCount (st.retryCount + 1) (some e)),
                    ⟨st.retryCount + 1, st.timeoutRetryCount, some e,
                     st.attemptIndex + 1, st.waits⟩)
            else
              runLoopFull env fuel
                ⟨st.retryCount + 1, st.timeoutRetryCount, some e,
                 st.attemptIndex + 1, st.waits⟩
    else some (some (exhaustedResult st.timeoutRetryCount st.retryCount st.lastError), st)

/-- `fetchContextFromNia`: the value the caller of the engine receives. -/
def fetchContextFromNia (env : NiaEnv) (fuel : Nat) : Option (Option FetchResult) :=
  (runLoopFull env fuel initLoopState).map Prod.fst

/-! Formatting in the `lookup_codebase_context` handler (index.ts 375-457). -/

def failRetrieveMsg : List Char := toCh ("Failed to retrieve context from Nia API")

def authErrorMsg : List Char :=
  toCh ("Authentication error. Please make sure you\x27re using a valid API key from your Nia account.")

def quotaErrorMsg : List Char :=
  toCh ("Error, you have exceeded your quota. Please upgrade to a Pro plan for unlimited usage.")

def httpErrorMsg (sc : Nat) : List Char :=
  toCh ("Failed to retrieve context from Nia API: HTTP error ") ++ natRepr sc

def trimNote (len : Nat) : List Char :=
  toCh ("\n\n[Content trimmed for display. The original response was ") ++
  natRepr len ++ toCh (" characters long.]")

/-- A paragraph break "\n\n" occurs in `content` starting at index `i`. -/
def nnAtB (content : List Char) (i : Nat) : Bool :=
  isPrefixL ['\n', '\n'] (content.drop i)

/-- JS `content.lastIndexOf("\n\n", fromIdx)`: the largest index at most
`fromIdx` where the separator occurs, `none` (JS -1) when there is none. -/
def lastNN (content : List Char) (fromIdx : Nat) : Option Nat :=
  if (List.range (fromIdx + 1)).any (fun i => nnAtB content i) then
    some (Nat.findGreatest (fun i => nnAtB content i = true) fromIdx)
  else none

/-- The display-budget truncation of index.ts lines 432-446. -/
def trimContent (content : List Char) : List Char :=
  if 10000 < content.length then
    match lastNN content 10000 with
    | some bp =>
      if 7500 < bp then content.take bp ++ trimNote content.length
      else content.take 10000 ++ toCh ("...") ++ trimNote content.length
    | none => content.take 10000 ++ toCh ("...") ++ trimNote content.length
  else content

/-- `result.sources.map(src => ...).join('\n')` of index.ts line 452. -/
def joinSourceLines (srcs : List (List Char)) : List Char :=
  catAll (List.intersperse (toCh ("\n")) (srcs.map (fun s => toCh ("- ") ++ s)))

/-- The success-path response text of index.ts lines 429-453. -/
def formatSuccess (query : List Char) (r : FetchResult) : List Char :=
  let responseText := toCh ("Context for \x22") ++ query ++ toCh ("\x22:\n\n") ++
    trimContent r.content
  match r.sources with
  | some srcs =>
    if 0 < srcs.length then responseText ++ toCh ("\n\nSources:\n") ++ joinSourceLines srcs
    else responseText
  | none => responseText

/-- The whole handler branching of index.ts lines 375-457 (the terminal
`if (result.statusCode)` is a JS truthiness test, hence the 0 check). -/
def formatResult (query : List Char) (result : Option FetchResult) : List Char :=
  match result with
  | none => failRetrieveMsg
  | some r =>
    if r.statusCode = some 403 ∨ r.statusCode = some 401 then authErrorMsg
    else if r.statusCode = some 402 then quotaErrorMsg
    else
      match r.statusCode with
      | some sc => if sc = 0 then formatSuccess query r else httpErrorMsg sc
      | none => formatSuccess query r

/-! Query elaboration (index.ts lines 45-50). -/

def lowerL (l : List Char) : List Char := l.map Char.toLower

def elaborationSuffix : List Char :=
  toCh (" - Please provide detailed information about the repository\x27s purpose, architecture, and key components.")

/-- The enhanced query of index.ts lines 45-50. -/
def enhancedQuery (query : List Char) : List Char :=
  if jsIncludes (lowerL query) (toCh ("repo")) ||
     jsIncludes (lowerL query) (toCh ("repository")) ||
     jsIncludes (lowerL query) (toCh ("what")) ||
     jsIncludes (lowerL query) (toCh ("how")) then
    query ++ elaborationSuffix
  else query

/-- Spec-side trigger predicate: the lowercase query contains one of the
fixed trigger substrings. -/
def queryTriggered (query : List Char) : Prop :=
  jsIncludes (lowerL query) (toCh ("repo")) = true ∨
  jsIncludes (lowerL query) (toCh ("repository")) = true ∨
  jsIncludes (lowerL query) (toCh ("what")) = true ∨
  jsIncludes (lowerL query) (toCh ("how")) = true

/-! Spec-side failure-message classification for the engine invariant. -/

/-- The content is one of the synthesized failure texts of the engine. -/
def isSynthFailure (c : List Char) : Prop :=
  c = toCh ("Error: Invalid response format from API") ∨
  isPrefixL (toCh ("Request timed out after ")) c = true ∨
  isPrefixL (toCh ("Error communicating with Nia API after ")) c = true

/-! Concrete fixtures used by counterexamples and witnesses. -/

/-- An environment whose every network attempt aborts with a timeout-class
error (the 180s AbortController of line 59 firing on every try). -/
def allTimeoutEnv : NiaEnv :=
  ⟨fun _ => none,
   fun _ => .throwErr ⟨toCh ("AbortError"), toCh ("This operation was aborted")⟩⟩

/-- A 2xx JSON response whose parsed body (`0`) fails the chat-completion
shape test. -/
def c2CexEnv : NiaEnv :=
  ⟨fun s => if s = toCh ("0") then some (.num 0) else none,
   fun _ => .response 200 (some (toCh ("application/json"))) (toCh ("0"))⟩

def c2CexResult : FetchResult :=
  { content := toCh ("Error: Invalid response format from API"), statusCode := some 500 }

/-- A plain 404 response on the first attempt. -/
def notFoundEnv : NiaEnv :=
  ⟨fun _ => none, fun _ => .response 404 none []⟩

/-- A 401 response on the first attempt. -/
def unauthEnv : NiaEnv :=
  ⟨fun _ => none, fun _ => .response 401 none []⟩

/-- A 2xx SSE response with an empty stream body. -/
def emptyStreamEnv : NiaEnv :=
  ⟨fun _ => none, fun _ => .response 200 (some (toCh ("text/event-stream"))) []⟩

/-- A 2xx response whose body is not JSON at all. -/
def parseFailEnv : NiaEnv :=
  ⟨fun _ => none, fun _ => .response 200 (some (toCh ("text/plain"))) (toCh ("oops"))⟩

/-- Witness identifiers and contents for the sources-extraction claims. -/
def c5pre : List Char := toCh ("answer\n")
def c5ids : List (List Char) := [toCh ("a"), toCh ("b")]
def c5full : List Char := c5pre ++ sourcesHeader ++ sourcesBlock c5ids

/-- A parse table for a one-event stream whose single fragment is
`c5full`. -/
def c5parse : List Char → Option JsValue := fun s =>
  if s = toCh ("OBJ") then some (.obj [(contentK, .str c5full)]) else none

def c9pre : List Char := toCh ("ok\n\n")
def c9ids : List (List Char) := [toCh ("a"), toCh ("b")]

/-- A chat-completion answer carrying a trailing Sources block. -/
def c9Content : List Char := c9pre ++ sourcesHeader ++ sourcesBlock c9ids

/-- A 2xx non-stream response whose parsed body has the chat-completion
shape with `c9Content` as the message content. -/
def c9Env : NiaEnv :=
  ⟨fun s =>
     if s = toCh ("resp") then
       some (.obj [(choicesK, .arr [.obj [(messageK, .obj [(contentK, .str c9Content)])]])])
     else none,
   fun _ => .response 200 none (toCh ("resp"))⟩

/-- Truncation witness content: 12000 characters with its only paragraph
break at index 9998. -/
def c7content : List Char :=
  List.replicate 9998 'a' ++ '\n' :: '\n' :: List.replicate 2000 'b'

/-! ## Theorems -/

/-- Invariant of the all-timeouts run: every iteration classifies the error
as timeout-class and re-enters the loop, because the exit check demands
both counters exhausted while `retryCount` stays below its bound, keeping
the while-condition true; hence no fuel suffices for a return. -/
lemma runLoopFull_allTimeout : ∀ (fuel : Nat) (st : LoopState),
    st.retryCount < maxRetries → runLoopFull allTimeoutEnv fuel st = none := by
  intro fuel
  induction fuel with
  | zero => intro st _; rfl
  | succ n ih =>
    intro st h
    have he : attempt allTimeoutEnv.parse (allTimeoutEnv.outcomes st.attemptIndex) =
        .error ⟨toCh ("AbortError"), toCh ("This operation was aborted")⟩ := rfl
    have ht : isTimeoutError ⟨toCh ("AbortError"), toCh ("This operation was aborted")⟩ = true := by
      decide
    rw [runLoopFull, if_pos (Or.inl h), he]
    simp only [ht, if_true]
    split
    · exact ih _ h
    · rw [if_neg]
      · exact ih _ h
      · intro hc
        exact absurd hc.1 (by omega)

/-- C1. The spec says an all-timeouts call stops as soon as
`timeoutRetryCount` reaches `maxTimeoutRetries` (5) and yields a 408
result. The code instead never exits the retry loop on that input: the
`while` condition stays true because the untouched `retryCount` is below
`maxRetries`, and the explicit exit check requires BOTH counters at their
bounds, so no number of iterations produces any result at all. -/
theorem c1_all_timeouts_never_return (fuel : Nat) :
    fetchContextFromNia allTimeoutEnv fuel = none := by
  unfold fetchContextFromNia
  rw [runLoopFull_allTimeout fuel initLoopState (by decide)]
  rfl

/-- C6. A query whose lowercase form contains one of the trigger
substrings ("repo", "repository", "what", "how") goes upstream with the
fixed elaboration suffix appended; any other query passes verbatim. -/
theorem c6_query_elaboration (query : List Char) :
    (queryTriggered query → enhancedQuery query = query ++ elaborationSuffix) ∧
    (¬queryTriggered query → enhancedQuery query = query) := by
  constructor
  · intro h
    rw [enhancedQuery, if_pos]
    rcases h with h | h | h | h <;> simp [h]
  · intro h
    rw [enhancedQuery, if_neg]
    intro hc
    apply h
    rcases Bool.or_eq_true_iff.mp hc with hc | hc
    · rcases Bool.or_eq_true_iff.mp hc with hc | hc
      · rcases Bool.or_eq_true_iff.mp hc with hc | hc
        · exact Or.inl hc
        · exact Or.inr (Or.inl hc)
      · exact Or.inr (Or.inr (Or.inl hc))
    · exact Or.inr (Or.inr (Or.inr hc))

/-- C3. A non-2xx upstream response makes the very next return happen:
`{content: "", statusCode: status}` comes back from the running iteration,
with the retry counters, the recorded backoff waits and the stored error
all untouched; on 401 or 403 the formatter then emits exactly the fixed
authentication message. -/
theorem c3_non2xx_short_circuit (env : NiaEnv) (st : LoopState) (q : List Char)
    (status : Nat) (ct : Option (List Char)) (body : List Char) (fuel : Nat)
    (hrun : st.retryCount < maxRetries ∨ st.timeoutRetryCount < maxTimeoutRetries)
    (hresp : env.outcomes st.attemptIndex = .response status ct body)
    (hbad : ¬(200 ≤ status ∧ status < 300)) :
    runLoopFull env (fuel + 1) st =
      some (some { content := [], statusCode := some status },
            { st with attemptIndex := st.attemptIndex + 1 }) ∧
    ((status = 401 ∨ status = 403) →
      formatResult q (some { content := [], statusCode := some status }) = authErrorMsg) := by
  have hok : responseOk status = false := by
    unfold responseOk
    rcases Nat.lt_or_ge status 200 with h | h
    · simp [h, Nat.not_le.mpr h]
    · have : ¬status < 300 := fun hlt => hbad ⟨h, hlt⟩
      simp [this]
  constructor
  · rw [runLoopFull, if_pos hrun, hresp]
    simp only [attempt, hok, Bool.not_false, if_true]
  · intro hs
    have : ({ content := [], statusCode := some status } : FetchResult).statusCode = some 403 ∨
        ({ content := [], statusCode := some status } : FetchResult).statusCode = some 401 := by
      rcases hs with hs | hs <;> subst hs
      · exact Or.inr rfl
      · exact Or.inl rfl
    rw [formatResult, if_pos this]

/-- Witness for C3: a first-attempt 401 response returns immediately with
empty content, both counters zero and no waits, and formats to the fixed
authentication message. -/
theorem c3_non2xx_short_circuit_witness :
    runLoopFull unauthEnv 1 initLoopState =
      some (some { content := [], statusCode := some 401 },
            (⟨0, 0, none, 1, []⟩ : LoopState)) ∧
    formatResult (toCh ("q")) (some { content := [], statusCode := some 401 }) =
      authErrorMsg := by
  have h := c3_non2xx_short_circuit unauthEnv initLoopState (toCh ("q")) 401 none [] 0
      (Or.inl (by decide)) rfl (by omega)
  exact ⟨h.1, h.2 (Or.inl rfl)⟩

/-- Counterexample to C2 as stated: on a 2xx JSON response whose parsed
body fails the chat-completion shape test, the engine returns a result
with BOTH `statusCode = 500` present and a non-empty (synthesized failure)
content body. -/
theorem c2_both_statusCode_and_content_cex :
    fetchContextFromNia c2CexEnv 1 = some (some c2CexResult) ∧
    c2CexResult.statusCode.isSome = true ∧ c2CexResult.content ≠ [] :=
  ⟨by decide, rfl, by decide⟩

/-- Witness for C6 at two concrete queries, one with a trigger word and
one without. -/
theorem c6_query_elaboration_witness :
    enhancedQuery (toCh ("How does parsing work")) =
      toCh ("How does parsing work") ++ elaborationSuffix ∧
    enhancedQuery (toCh ("list the tests")) = toCh ("list the tests") :=
  ⟨(c6_query_elaboration (toCh ("How does parsing work"))).1
      (Or.inr (Or.inr (Or.inr (by decide)))),
   (c6_query_elaboration (toCh ("list the tests"))).2
      (by intro h; rcases h with h | h | h | h <;> exact absurd h (by decide))⟩

/-- A run whose every attempt throws the body-reuse TypeError never
returns: the error is generic-class, so only `retryCount` rises while
`timeoutRetryCount` stays put, the exit check demands both counters
exhausted, and the while-condition stays true via
`timeoutRetryCount < maxTimeoutRetries`. -/
lemma runLoopFull_allGeneric : ∀ (fuel : Nat) (st : LoopState),
    st.timeoutRetryCount < maxTimeoutRetries →
    runLoopFull parseFailEnv fuel st = none := by
  intro fuel
  induction fuel with
  | zero => intro st _; rfl
  | succ n ih =>
    intro st h
    have he : attempt parseFailEnv.parse (parseFailEnv.outcomes st.attemptIndex) =
        .error bodyUnusableError := rfl
    have ht : isTimeoutError bodyUnusableError = false := by decide
    rw [runLoopFull, if_pos (Or.inr h), he]
    simp only [ht, Bool.false_eq_true, if_false]
    split
    · rw [if_neg (fun hc => absurd hc.2 (by omega))]
      exact ih _ h
    · rw [if_neg (fun hc => absurd hc.2 (by omega))]
      exact ih _ h

/-- C8. The claimed plain-text fallback is dead code: on a 2xx non-stream
response whose body `JSON.parse` rejects, `response.json()` has already
consumed the one-shot fetch body, so the `response.text()` of the catch
throws the body-reuse TypeError instead of returning the first 2000
characters. The throw lands in the retry loop as a generic-class error,
and — the exit check demanding both counters exhausted — an engine fed
such responses never returns any result at all, let alone the claimed
truncated body. -/
theorem c8_parse_failure_never_returns :
    attempt parseFailEnv.parse
        (.response 200 (some (toCh ("text/plain"))) (toCh ("oops"))) =
      .error bodyUnusableError ∧
    isTimeoutError bodyUnusableError = false ∧
    ∀ fuel, fetchContextFromNia parseFailEnv fuel = none := by
  refine ⟨rfl, by decide, ?_⟩
  intro fuel
  unfold fetchContextFromNia
  rw [runLoopFull_allGeneric fuel initLoopState (by decide)]
  rfl

/-- `isPrefixL` holds of any list extended on the right. -/
lemma isPrefixL_self_append : ∀ xs ys : List Char, isPrefixL xs (xs ++ ys) = true := by
  intro xs ys
  induction xs with
  | nil => rfl
  | cons x xs ih => simp [isPrefixL, ih]

/-- Both post-loop exhaustion results carry a synthesized failure text. -/
lemma exhaustedResult_synth (a b : Nat) (e : Option JsError) :
    isSynthFailure (exhaustedResult a b e).content := by
  unfold exhaustedResult
  split
  · refine Or.inr (Or.inl ?_)
    show isPrefixL _ (timeoutExhaustedMsg a) = true
    unfold timeoutExhaustedMsg
    rw [List.append_assoc]
    exact isPrefixL_self_append _ _
  · refine Or.inr (Or.inr ?_)
    show isPrefixL _ (genericExhaustedMsg b e) = true
    unfold genericExhaustedMsg
    rw [List.append_assoc, List.append_assoc]
    exact isPrefixL_self_append _ _

/-- Exhaustive description of the results the try-block can return:
either no status code at all, or an empty content (the non-2xx
short-circuit), or the fixed invalid-format 500 result. -/
lemma attempt_ok_shape (parse : List Char → Option JsValue) (o : AttemptOutcome)
    (r : FetchResult) (h : attempt parse o = .ok r) :
    r.statusCode = none ∨ r.content = [] ∨
      (r.content = toCh ("Error: Invalid response format from API") ∧
        r.statusCode = some 500) := by
  cases o with
  | throwErr e => exact absurd h (by simp [attempt])
  | response status ct body =>
    cases h1 : responseOk status with
    | false =>
      have ha : attempt parse (.response status ct body) =
          .ok { content := [], statusCode := some status } := by
        simp [attempt, h1]
      rw [ha] at h
      injection h with h
      subst h
      exact Or.inr (Or.inl rfl)
    | true =>
      cases h2 : isSSEContentType ct with
      | true =>
        have ha : attempt parse (.response status ct body) =
            .ok { content := sseAccumulate parse (jsSplitNN body),
                  sources := some (extractSources (sseAccumulate parse (jsSplitNN body))) } := by
          simp [attempt, h1, h2]
        rw [ha] at h
        injection h with h
        subst h
        exact Or.inl rfl
      | false =>
        cases hp : parse body with
        | none =>
          exact absurd h (by simp [attempt, h1, h2, hp])
        | some data =>
          cases h3 : invalidShape data with
          | true =>
            have ha : attempt parse (.response status ct body) =
                .ok { content := toCh ("Error: Invalid response format from API"),
                      statusCode := some 500 } := by
              simp [attempt, h1, h2, hp, h3]
            rw [ha] at h
            injection h with h
            subst h
            exact Or.inr (Or.inr ⟨rfl, rfl⟩)
          | false =>
            cases hcf : chatContentField data
            case str c =>
              have ha : attempt parse (.response status ct body) =
                  .ok { content := c, sources := some (extractSources c) } := by
                simp [attempt, h1, h2, hp, h3, hcf]
              rw [ha] at h
              injection h with h
              subst h
              exact Or.inl rfl
            all_goals
              exact absurd h (by simp [attempt, h1, h2, hp, h3, hcf])

/-- Every value the retry loop ever returns is a non-null result whose
status code, when present, co-occurs only with an empty or synthesized
failure content. -/
lemma runLoopFull_shape : ∀ (fuel : Nat) (env : NiaEnv) (st : LoopState)
    (rv : Option FetchResult) (fst : LoopState),
    runLoopFull env fuel st = some (rv, fst) →
    ∃ r, rv = some r ∧
      (r.statusCode = none ∨ r.content = [] ∨ isSynthFailure r.content) := by
  intro fuel
  induction fuel with
  | zero => intro env st rv fst h; exact absurd h (by simp [runLoopFull])
  | succ n ih =>
    intro env st rv fst h
    rw [runLoopFull] at h
    split at h
    · split at h
      next r heq =>
        obtain ⟨h1, h2⟩ := Prod.ext_iff.mp (Option.some.inj h)
        refine ⟨r, h1.symm, ?_⟩
        rcases attempt_ok_shape _ _ _ heq with hs | hs | hs
        · exact Or.inl hs
        · exact Or.inr (Or.inl hs)
        · exact Or.inr (Or.inr (Or.inl hs.1))
      next e heq =>
        split at h
        · split at h
          · exact ih env _ rv fst h
          · split at h
            · obtain ⟨h1, h2⟩ := Prod.ext_iff.mp (Option.some.inj h)
              exact ⟨_, h1.symm, Or.inr (Or.inr (exhaustedResult_synth _ _ _))⟩
            · exact ih env _ rv fst h
        · split at h
          · split at h
            · obtain ⟨h1, h2⟩ := Prod.ext_iff.mp (Option.some.inj h)
              exact ⟨_, h1.symm, Or.inr (Or.inr (exhaustedResult_synth _ _ _))⟩
            · exact ih env _ rv fst h
          · split at h
            · obtain ⟨h1, h2⟩ := Prod.ext_iff.mp (Option.some.inj h)
              exact ⟨_, h1.symm, Or.inr (Or.inr (exhaustedResult_synth _ _ _))⟩
            · exact ih env _ rv fst h
    · obtain ⟨h1, h2⟩ := Prod.ext_iff.mp (Option.some.inj h)
      exact ⟨_, h1.symm, Or.inr (Or.inr (exhaustedResult_synth _ _ _))⟩

/-- The success formatting always starts with the "Context for" header. -/
lemma formatSuccess_ne_fail (q : List Char) (r : FetchResult) :
    formatSuccess q r ≠ failRetrieveMsg := by
  have hhead : (formatSuccess q r).head? = some 'C' := by
    cases hr : r.sources with
    | none => simp only [formatSuccess, hr]; rfl
    | some srcs =>
      by_cases hl : 0 < srcs.length
      · simp only [formatSuccess, hr, hl, if_true]; rfl
      · simp only [formatSuccess, hr, hl, if_false]; rfl
  intro hc
  rw [hc] at hhead
  exact absurd hhead (by decide)

/-- The generic HTTP-error message strictly extends the bare failure
message, so the two never coincide. -/
lemma httpErrorMsg_ne_fail (sc : Nat) : httpErrorMsg sc ≠ failRetrieveMsg := by
  intro hc
  have hl := congrArg List.length hc
  rw [httpErrorMsg, List.length_append] at hl
  have h1 : (toCh ("Failed to retrieve context from Nia API: HTTP error ")).length = 52 := by
    decide
  have h2 : failRetrieveMsg.length = 39 := by decide
  rw [h1, h2] at hl
  omega

/-- No non-null result formats to the null-result failure message. -/
lemma formatResult_some_ne_fail (q : List Char) (r : FetchResult) :
    formatResult q (some r) ≠ failRetrieveMsg := by
  simp only [formatResult]
  split
  · exact (by decide : authErrorMsg ≠ failRetrieveMsg)
  · split
    · exact (by decide : quotaErrorMsg ≠ failRetrieveMsg)
    · split
      next sc hsc =>
        split
        · exact formatSuccess_ne_fail q r
        · exact httpErrorMsg_ne_fail sc
      next => exact formatSuccess_ne_fail q r

/-- C10. A terminating engine call always hands the tool handler a
non-null result, so the null branch of the handler (the bare "Failed to
retrieve context from Nia API" text) is unreachable from all return paths
of the engine. -/
theorem c10_engine_never_null (env : NiaEnv) (fuel : Nat) (q : List Char)
    (rv : Option FetchResult) (st : LoopState)
    (h : runLoopFull env fuel initLoopState = some (rv, st)) :
    rv.isSome = true ∧ formatResult q rv ≠ failRetrieveMsg := by
  obtain ⟨r, hrv, _⟩ := runLoopFull_shape fuel env initLoopState rv st h
  subst hrv
  exact ⟨rfl, formatResult_some_ne_fail q r⟩

/-- Greedy identifier matching stops exactly at the closing backtick. -/
lemma takeWhile_append_bt (id rest : List Char) (h : backtick ∉ id) :
    (id ++ backtick :: rest).takeWhile (fun c => c ≠ backtick) = id := by
  induction id with
  | nil => simp
  | cons c cs ih =>
    have hc : c ≠ backtick := fun e => h (by simp [e])
    simp only [List.cons_append, List.takeWhile_cons, decide_eq_true_eq]
    rw [if_pos hc, ih (fun m => h (List.mem_cons_of_mem _ m))]

lemma dropWhile_append_bt (id rest : List Char) (h : backtick ∉ id) :
    (id ++ backtick :: rest).dropWhile (fun c => c ≠ backtick) = backtick :: rest := by
  induction id with
  | nil => simp
  | cons c cs ih =>
    have hc : c ≠ backtick := fun e => h (by simp [e])
    simp only [List.cons_append, List.dropWhile_cons, decide_eq_true_eq]
    rw [if_pos hc, ih (fun m => h (List.mem_cons_of_mem _ m))]

lemma drop_len_append : ∀ (a b : List Char), (a ++ b).drop a.length = b := by
  intro a b
  induction a with
  | nil => rfl
  | cons c cs ih => simp [ih]

/-- The item matcher consumes exactly one well-formed bullet line. -/
lemma parseItem_itemOf (id rest : List Char) (hne : id ≠ []) (hbt : backtick ∉ id) :
    parseItem (itemOf id ++ rest) = some (itemOf id, rest) := by
  have hsh : itemOf id ++ rest =
      '-' :: ' ' :: backtick :: (id ++ backtick :: '\n' :: rest) := by
    simp [itemOf]
  rw [hsh]
  simp only [parseItem]
  rw [if_pos (by simp)]
  rw [takeWhile_append_bt _ _ hbt, dropWhile_append_bt _ _ hbt]
  have hie : id.isEmpty = false := by
    cases id with
    | nil => exact absurd rfl hne
    | cons _ _ => rfl
  rw [hie]
  simp only [Bool.false_eq_true, if_false]
  rw [if_pos (by simp)]
  try rfl
  try simp [itemOf]

/-- The greedy repetition captures a whole well-formed block verbatim. -/
lemma matchItemsAux_block : ∀ (ids : List (List Char)) (fuel : Nat),
    validIds ids → (sourcesBlock ids).length ≤ fuel →
    matchItemsAux fuel (sourcesBlock ids) = sourcesBlock ids := by
  intro ids
  induction ids with
  | nil =>
    intro fuel _ _
    cases fuel with
    | zero => rfl
    | succ n => rfl
  | cons id ids ih =>
    intro fuel hv hlen
    have hid := hv id (List.mem_cons_self ..)
    have hb : sourcesBlock (id :: ids) = itemOf id ++ sourcesBlock ids := by
      simp [sourcesBlock, catAll]
    have hil : (itemOf id).length = id.length + 5 := by
      show ('-' :: ' ' :: backtick :: (id ++ [backtick, '\n'])).length = id.length + 5
      simp [List.length_append]
    have hlen' : (itemOf id).length + (sourcesBlock ids).length ≤ fuel := by
      rw [hb, List.length_append] at hlen
      exact hlen
    cases fuel with
    | zero => omega
    | succ n =>
      rw [hb]
      simp only [matchItemsAux]
      rw [parseItem_itemOf id _ hid.1 hid.2]
      show itemOf id ++ matchItemsAux n (sourcesBlock ids) = itemOf id ++ sourcesBlock ids
      rw [ih n (fun i hi => hv i (List.mem_cons_of_mem _ hi)) (by omega)]

/-- One unfolding step of the regex scan. -/
lemma findSourcesMatch_cons (c : Char) (rest : List Char) :
    findSourcesMatch (c :: rest) =
      if isPrefixL sourcesHeader (c :: rest) then
        (if (matchItems ((c :: rest).drop sourcesHeader.length)).isEmpty then
           findSourcesMatch rest
         else some (matchItems ((c :: rest).drop sourcesHeader.length)))
      else findSourcesMatch rest := rfl

/-- Scanning past a header-free prefix leaves the match unchanged. -/
lemma findSourcesMatch_skip (pre rest : List Char) (h : '*' ∉ pre) :
    findSourcesMatch (pre ++ rest) = findSourcesMatch rest := by
  induction pre with
  | nil => rfl
  | cons c cs ih =>
    have hc : ¬('*' = c) := fun e => h (by simp [e.symm])
    have hf : isPrefixL sourcesHeader (c :: (cs ++ rest)) = false := by
      simp only [sourcesHeader, isPrefixL]
      rw [if_neg hc]
    rw [List.cons_append, findSourcesMatch_cons, if_neg (by simp [hf])]
    exact ih (fun m => h (List.mem_cons_of_mem _ m))

/-- At the header position the regex matches and captures the block. -/
lemma findSourcesMatch_at (ids : List (List Char)) (hv : validIds ids) (hne : ids ≠ []) :
    findSourcesMatch (sourcesHeader ++ sourcesBlock ids) = some (sourcesBlock ids) := by
  obtain ⟨id, ids', rfl⟩ : ∃ x xs, ids = x :: xs := by
    cases ids with
    | nil => exact absurd rfl hne
    | cons x xs => exact ⟨x, xs, rfl⟩
  have hpr : isPrefixL sourcesHeader (sourcesHeader ++ sourcesBlock (id :: ids')) = true :=
    isPrefixL_self_append _ _
  have hb : sourcesBlock (id :: ids') = itemOf id ++ sourcesBlock ids' := by
    simp [sourcesBlock, catAll]
  have hdecomp : sourcesHeader ++ sourcesBlock (id :: ids') =
      '*' :: (['*', 'S', 'o', 'u', 'r', 'c', 'e', 's', ':', '*', '*', '\n'] ++
        sourcesBlock (id :: ids')) := rfl
  rw [hdecomp, findSourcesMatch_cons, ← hdecomp]
  rw [if_pos hpr, drop_len_append]
  show (if (matchItems (sourcesBlock (id :: ids'))).isEmpty then _ else _) = _
  rw [matchItems, matchItemsAux_block (id :: ids') _ hv (le_refl _)]
  have hbe : (sourcesBlock (id :: ids')).isEmpty = false := by
    rw [hb]
    simp [itemOf]
  rw [if_neg (by simp [hbe])]

lemma execAux_nil : ∀ fuel, execSourceRegexAux fuel [] = [] := by
  intro fuel
  cases fuel <;> rfl

/-- One bullet line yields its identifier and leaves the scan right after
the closing backtick. -/
lemma execAux_item_step (id tail : List Char) (n : Nat)
    (hne : id ≠ []) (hbt : backtick ∉ id) :
    execSourceRegexAux (n + 1) (itemOf id ++ tail) =
      id :: execSourceRegexAux n ('\n' :: tail) := by
  have hsh : itemOf id ++ tail =
      '-' :: ' ' :: backtick :: (id ++ backtick :: '\n' :: tail) := by
    simp [itemOf]
  rw [hsh]
  simp only [execSourceRegexAux]
  rw [if_pos (by simp)]
  rw [takeWhile_append_bt _ _ hbt, dropWhile_append_bt _ _ hbt]
  have hie : id.isEmpty = false := by
    cases id with
    | nil => exact absurd rfl hne
    | cons _ _ => rfl
  rw [hie]
  simp only [Bool.false_eq_true, if_false]
  rw [if_pos (by simp)]
  try rfl

/-- The newline between bullet lines is skipped by one failed attempt. -/
lemma execAux_newline_step (id2 tail : List Char) (m : Nat) :
    execSourceRegexAux (m + 1) ('\n' :: (itemOf id2 ++ tail)) =
      execSourceRegexAux m (itemOf id2 ++ tail) := by
  have hsh : itemOf id2 ++ tail =
      '-' :: ' ' :: backtick :: (id2 ++ backtick :: '\n' :: tail) := by
    simp [itemOf]
  rw [hsh]
  simp only [execSourceRegexAux]
  rw [if_neg (fun hc => absurd hc.1 (by decide))]

/-- The global exec loop recovers exactly the identifiers of a
well-formed block, in order. -/
lemma execAux_block : ∀ (ids : List (List Char)) (fuel : Nat),
    validIds ids → (sourcesBlock ids).length ≤ fuel →
    execSourceRegexAux fuel (sourcesBlock ids) = ids := by
  intro ids
  induction ids with
  | nil => intro fuel _ _; exact execAux_nil fuel
  | cons id ids ih =>
    intro fuel hv hlen
    have hid := hv id (List.mem_cons_self ..)
    have hb : sourcesBlock (id :: ids) = itemOf id ++ sourcesBlock ids := by
      simp [sourcesBlock, catAll]
    have hil : (itemOf id).length = id.length + 5 := by
      show ('-' :: ' ' :: backtick :: (id ++ [backtick, '\n'])).length = id.length + 5
      simp [List.length_append]
    have hidp : 0 < id.length := List.length_pos.mpr hid.1
    have hlen' : (itemOf id).length + (sourcesBlock ids).length ≤ fuel := by
      rw [hb, List.length_append] at hlen
      exact hlen
    cases fuel with
    | zero => omega
    | succ n =>
      rw [hb, execAux_item_step id _ n hid.1 hid.2]
      congr 1
      cases ids with
      | nil =>
        obtain ⟨m, rfl⟩ : ∃ m, n = m + 1 := ⟨n - 1, by omega⟩
        show execSourceRegexAux (m + 1) ['\n'] = ([] : List (List Char))
        simp only [execSourceRegexAux]
        exact execAux_nil m
      | cons id2 ids2 =>
        obtain ⟨m, rfl⟩ : ∃ m, n = m + 1 := ⟨n - 1, by omega⟩
        have hb2 : sourcesBlock (id2 :: ids2) = itemOf id2 ++ sourcesBlock ids2 := by
          simp [sourcesBlock, catAll]
        rw [hb2, execAux_newline_step, ← hb2]
        exact ih m (fun i hi => hv i (List.mem_cons_of_mem _ hi)) (by omega)

/-- The extraction of index.ts lines 152-161 on a content with a
header-free prefix followed by a well-formed trailing Sources block
recovers exactly the identifiers of the block, in order. -/
lemma extractSources_block (pre : List Char) (ids : List (List Char))
    (hpre : '*' ∉ pre) (hne : ids ≠ []) (hv : validIds ids) :
    extractSources (pre ++ sourcesHeader ++ sourcesBlock ids) = ids := by
  unfold extractSources
  rw [List.append_assoc, findSourcesMatch_skip pre _ hpre, findSourcesMatch_at ids hv hne]
  show execSourceRegexAux (sourcesBlock ids).length (sourcesBlock ids) = ids
  exact execAux_block ids _ hv (le_refl _)

/-- C5. When the accumulated stream content ends in a well-formed Sources
block of backtick-quoted bulleted identifiers, the SSE success
return carries exactly those identifiers, in appearance order, as its
sources — while its content is the full accumulated text with the Sources
section left in place. -/
theorem c5_sources_extraction (parse : List Char → Option JsValue)
    (status : Nat) (ct : Option (List Char)) (body : List Char)
    (pre : List Char) (ids : List (List Char))
    (hok : responseOk status = true) (hsse : isSSEContentType ct = true)
    (hacc : sseAccumulate parse (jsSplitNN body) = pre ++ sourcesHeader ++ sourcesBlock ids)
    (hpre : '*' ∉ pre) (hne : ids ≠ []) (hv : validIds ids) :
    attempt parse (.response status ct body) =
      .ok { content := pre ++ sourcesHeader ++ sourcesBlock ids, sources := some ids } := by
  have ha : attempt parse (.response status ct body) =
      .ok { content := sseAccumulate parse (jsSplitNN body),
            sources := some (extractSources (sseAccumulate parse (jsSplitNN body))) } := by
    simp [attempt, hok, hsse]
  rw [ha, hacc, extractSources_block pre ids hpre hne hv]

/-- Witness for C5: a one-event stream accumulating to
`"answer\n**Sources:**\n- \x60a\x60\n- \x60b\x60\n"` yields sources `["a", "b"]` and the
untouched content. -/
theorem c5_sources_extraction_witness :
    attempt c5parse
      (.response 200 (some (toCh ("text/event-stream"))) (toCh ("data: OBJ"))) =
      .ok { content := c5full, sources := some c5ids } :=
  c5_sources_extraction c5parse 200 (some (toCh ("text/event-stream"))) (toCh ("data: OBJ"))
    c5pre c5ids (by decide) (by decide) (by decide) (by decide) (by decide)
    (by unfold validIds; decide)

/-- C9. The non-stream JSON success path extracts citations with the same
Sources pattern as the stream path: a chat-shaped body whose message
content ends in a well-formed Sources block returns that content
unmodified together with its identifiers, in appearance order. -/
theorem c9_nonstream_sources (parse : List Char → Option JsValue)
    (status : Nat) (ct : Option (List Char)) (body : List Char) (data : JsValue)
    (pre : List Char) (ids : List (List Char))
    (hok : responseOk status = true) (hsse : isSSEContentType ct = false)
    (hp : parse body = some data) (hinv : invalidShape data = false)
    (hcf : chatContentField data = .str (pre ++ sourcesHeader ++ sourcesBlock ids))
    (hpre : '*' ∉ pre) (hne : ids ≠ []) (hv : validIds ids) :
    attempt parse (.response status ct body) =
      .ok { content := pre ++ sourcesHeader ++ sourcesBlock ids, sources := some ids } := by
  have ha : attempt parse (.response status ct body) =
      .ok { content := pre ++ sourcesHeader ++ sourcesBlock ids,
            sources := some (extractSources (pre ++ sourcesHeader ++ sourcesBlock ids)) } := by
    simp [attempt, hok, hsse, hp, hinv, hcf]
  rw [ha, extractSources_block pre ids hpre hne hv]

/-- Witness for C9 at the chat-shaped environment carrying `c9Content`. -/
theorem c9_nonstream_sources_witness :
    attempt c9Env.parse (.response 200 none (toCh ("resp"))) =
      .ok { content := c9Content, sources := some c9ids } :=
  c9_nonstream_sources c9Env.parse 200 none (toCh ("resp"))
    (.obj [(choicesK, .arr [.obj [(messageK, .obj [(contentK, .str c9Content)])]])])
    c9pre c9ids (by decide) (by decide) rfl (by decide) rfl (by decide) (by decide)
    (by unfold validIds; decide)

/-- `lastNN` really is the last paragraph-break index at or before the
bound. -/
lemma lastNN_eq_some (content : List Char) (f bp : Nat)
    (h1 : nnAtB content bp = true) (h2 : bp ≤ f)
    (h3 : ∀ j, j ≤ f → nnAtB content j = true → j ≤ bp) :
    lastNN content f = some bp := by
  unfold lastNN
  rw [if_pos (by
    rw [List.any_eq_true]
    exact ⟨bp, List.mem_range.mpr (by omega), h1⟩)]
  congr 1
  rw [Nat.findGreatest_eq_iff]
  refine ⟨h2, fun _ => h1, ?_⟩
  intro n hlt hle hP
  exact absurd (h3 n hle hP) (by omega)

/-- When no paragraph break occurs at or before the bound, `lastNN` is
`none` (JS -1). -/
lemma lastNN_eq_none (content : List Char) (f : Nat)
    (h : ∀ j, j ≤ f → nnAtB content j = false) :
    lastNN content f = none := by
  unfold lastNN
  rw [if_neg]
  intro hc
  rw [List.any_eq_true] at hc
  obtain ⟨j, hj, hp⟩ := hc
  have hj' : j ≤ f := by
    have := List.mem_range.mp hj
    omega
  rw [h j hj'] at hp
  cases hp

/-- C7. Content at most 10000 characters long passes through untouched;
longer content is cut at the last paragraph break at or before index
10000 when that break lies past 7500, and otherwise (including when no
break exists in range) hard-cut at exactly 10000 with "..." appended — in
every truncating case followed by the note stating the original length. -/
theorem c7_truncation (content : List Char) :
    (content.length ≤ 10000 → trimContent content = content) ∧
    (10000 < content.length →
      ∀ bp, nnAtB content bp = true → bp ≤ 10000 →
        (∀ j, j ≤ 10000 → nnAtB content j = true → j ≤ bp) →
        ((7500 < bp →
            trimContent content = content.take bp ++ trimNote content.length) ∧
         (bp ≤ 7500 →
            trimContent content =
              content.take 10000 ++ toCh ("...") ++ trimNote content.length))) ∧
    (10000 < content.length → (∀ j, j ≤ 10000 → nnAtB content j = false) →
      trimContent content =
        content.take 10000 ++ toCh ("...") ++ trimNote content.length) := by
  refine ⟨?_, ?_, ?_⟩
  · intro h
    unfold trimContent
    rw [if_neg (by omega)]
  · intro h bp h1 h2 h3
    have hl := lastNN_eq_some content 10000 bp h1 h2 h3
    constructor
    · intro h4
      unfold trimContent
      rw [if_pos h]
      simp only [hl]
      rw [if_pos h4]
    · intro h4
      unfold trimContent
      rw [if_pos h]
      simp only [hl]
      rw [if_neg (by omega)]
  · intro h hn
    have hl := lastNN_eq_none content 10000 hn
    unfold trimContent
    rw [if_pos h]
    simp only [hl]

/-- Dropping past a replicated prefix lands inside the tail. -/
lemma drop_replicate_append_add (n k : Nat) (c : Char) (l : List Char) :
    (List.replicate n c ++ l).drop (n + k) = l.drop k := by
  induction n with
  | zero => simp
  | succ n ih =>
    have harith : n + 1 + k = (n + k) + 1 := by omega
    rw [List.replicate_succ, List.cons_append, harith, List.drop_succ_cons, ih]

lemma c7content_drop_9998 : c7content.drop 9998 = '\n' :: '\n' :: List.replicate 2000 'b' := by
  have h := drop_replicate_append_add 9998 0 'a' ('\n' :: '\n' :: List.replicate 2000 'b')
  rw [Nat.add_zero, List.drop_zero] at h
  exact h

lemma c7content_drop_9999 : c7content.drop 9999 = '\n' :: List.replicate 2000 'b' := by
  have h := drop_replicate_append_add 9998 1 'a' ('\n' :: '\n' :: List.replicate 2000 'b')
  rw [show (9998 : Nat) + 1 = 9999 from rfl] at h
  rw [List.drop_succ_cons, List.drop_zero] at h
  exact h

lemma c7content_drop_10000 : c7content.drop 10000 = List.replicate 2000 'b' := by
  have h := drop_replicate_append_add 9998 2 'a' ('\n' :: '\n' :: List.replicate 2000 'b')
  rw [show (9998 : Nat) + 2 = 10000 from rfl] at h
  rw [show (2 : Nat) = 0 + 1 + 1 from rfl, List.drop_succ_cons, List.drop_succ_cons,
    List.drop_zero] at h
  exact h

/-- Witness for C7: 12000 characters with the single paragraph break at
index 9998 get cut at that break with the length note appended. -/
theorem c7_truncation_witness :
    10000 < c7content.length ∧ nnAtB c7content 9998 = true ∧
    trimContent c7content = c7content.take 9998 ++ trimNote c7content.length := by
  have hlen : 10000 < c7content.length := by
    have hl : c7content.length = 12000 := by
      show (List.replicate 9998 'a' ++ '\n' :: '\n' :: List.replicate 2000 'b').length = 12000
      rw [List.length_append, List.length_replicate, List.length_cons, List.length_cons,
        List.length_replicate]
    omega
  have h1 : nnAtB c7content 9998 = true := by
    unfold nnAtB
    rw [c7content_drop_9998]
    rfl
  have h9999 : nnAtB c7content 9999 = false := by
    unfold nnAtB
    rw [c7content_drop_9999]
    rw [show (2000 : Nat) = 1999 + 1 from rfl, List.replicate_succ]
    rfl
  have h10000 : nnAtB c7content 10000 = false := by
    unfold nnAtB
    rw [c7content_drop_10000]
    rw [show (2000 : Nat) = 1999 + 1 from rfl, List.replicate_succ]
    rfl
  have h3 : ∀ j, j ≤ 10000 → nnAtB c7content j = true → j ≤ 9998 := by
    intro j hj hnn
    by_contra hc
    push_neg at hc
    have hj2 : j = 9999 ∨ j = 10000 := by omega
    rcases hj2 with rfl | rfl
    · rw [h9999] at hnn
      cases hnn
    · rw [h10000] at hnn
      cases hnn
  exact ⟨hlen, h1,
    ((c7_truncation c7content).2.1 hlen 9998 h1 (by omega) h3).1 (by omega)⟩

/-- Witness for C10 at the empty-stream environment. -/
theorem c10_engine_never_null_witness :
    (some { content := [], sources := some [], statusCode := none } : Option FetchResult).isSome
        = true ∧
    formatResult (toCh ("q"))
        (some { content := [], sources := some [], statusCode := none }) ≠ failRetrieveMsg :=
  c10_engine_never_null emptyStreamEnv 1 (toCh ("q"))
    (some { content := [], sources := some [], statusCode := none }) ⟨0, 0, none, 1, []⟩
    (by decide)

/-- C2 (amended). Whenever a terminating engine call returns a result
whose `statusCode` is present, the content is either empty (the non-2xx
short-circuit) or one of the synthesized failure messages — never a real
answer body. -/
theorem c2_statusCode_content_invariant (env : NiaEnv) (fuel : Nat) (r : FetchResult)
    (st : LoopState)
    (h : runLoopFull env fuel initLoopState = some (some r, st))
    (hsc : r.statusCode.isSome = true) :
    r.content = [] ∨ isSynthFailure r.content := by
  obtain ⟨r', hr', hshape⟩ := runLoopFull_shape fuel env initLoopState (some r) st h
  obtain rfl : r = r' := by
    injection hr'
  rcases hshape with h1 | h2
  · rw [h1] at hsc
    exact absurd hsc (by simp)
  · exact h2

/-- One pass of the SSE loop appends exactly the event's fragment. -/
lemma sseStep_eq (parse : List Char → Option JsValue) (acc event : List Char) :
    sseStep parse acc event = acc ++ eventFragment parse event := by
  by_cases h1 : (jsTrim event).isEmpty = true
  · simp [sseStep, eventFragment, h1]
  · by_cases h2 : jsIncludes event (toCh ("data: [DONE]")) = true
    · simp [sseStep, eventFragment, h1, h2]
    · by_cases h3 : isPrefixL (toCh ("data: ")) event = true
      · by_cases h4 : (jsTrim (event.drop 6)).isEmpty = true
        · simp [sseStep, eventFragment, h1, h2, h3, h4]
        · cases hp : parse (jsTrim (event.drop 6)) with
          | some j => simp [sseStep, eventFragment, h1, h2, h3, h4, hp]
          | none => simp [sseStep, eventFragment, h1, h2, h3, h4, hp]
      · simp [sseStep, eventFragment, h1, h2, h3]

lemma foldl_sseStep (parse : List Char → Option JsValue) (events : List (List Char)) :
    ∀ acc, events.foldl (sseStep parse) acc =
      acc ++ catAll (events.map (eventFragment parse)) := by
  induction events with
  | nil => intro acc; simp [catAll]
  | cons e es ih =>
    intro acc
    simp only [List.foldl_cons, List.map_cons, catAll]
    rw [sseStep_eq, ih, List.append_assoc]

/-- C4. The reconstructed stream content is the concatenation, in event
order, of one fragment per event of the blank-line split, each chosen by
the ordered probe (delta content, then message content, then raw content);
empty events, the done-marker event and events whose payload fails to
parse contribute nothing and never abort the reconstruction. -/
theorem c4_stream_reconstruction (parse : List Char → Option JsValue) (body : List Char) :
    sseAccumulate parse (jsSplitNN body) =
      catAll ((jsSplitNN body).map (eventFragment parse)) := by
  unfold sseAccumulate
  rw [foldl_sseStep]
  exact List.nil_append _

/-- Witness for C2 (amended) at the 404 environment. -/
theorem c2_statusCode_content_invariant_witness :
    runLoopFull notFoundEnv 1 initLoopState =
      some (some { content := [], statusCode := some 404 },
            (⟨0, 0, none, 1, []⟩ : LoopState)) ∧
    (({ content := [], statusCode := some 404 } : FetchResult).content = [] ∨
      isSynthFailure ({ content := [], statusCode := some 404 } : FetchResult).content) :=
  ⟨by decide,
   c2_statusCode_content_invariant notFoundEnv 1
     { content := [], statusCode := some 404 } ⟨0, 0, none, 1, []⟩ (by decide) rfl⟩

end Nia
